import Mathlib

/-!
# Verification of `processSST.py`

A shallow embedding of `processSST.py`, which parses the UK Met Office Hadley
Centre sea-surface-temperature fixed-width text format into month-keyed
180×360 grids of signed 16-bit integers, and renders each grid through a
256-entry palette.

Modelling conventions:
* Lines are the exact strings `f.readline()` returns, as `List Char`
  (a line normally carries its trailing newline; the final line of a file
  may lack it).
* Python `int()` is modelled on its documented base-10 behaviour: optional
  surrounding ASCII whitespace, one optional sign, decimal digits with
  single underscores permitted between digits.  (Non-ASCII digit support is
  out of scope for this dataset.)
* Cell stores go through `toInt16`, the two's-complement wrap performed by
  numpy when a Python int is assigned into an `int16` array (the script
  uses the `np.float` alias, so it runs on numpy < 1.24, where out-of-range
  assignment wraps silently).
* A fatal Python exception (ValueError, NameError, KeyError, IndexError) is
  modelled as `none`: the script performs no recovery, so the only
  observable fact about an exception is that no output is produced.
  For the same reason a data line is modelled as "parse all 360 fields,
  then commit the row": cell writes preceding a mid-row exception are
  unobservable.
* The floating-point gradient (`float64`) is modelled over `ℚ`.  The
  composite `((raw/100 + 5) * (253/35) + 2)`, clipped to `[2,255]` and
  truncated, was checked exhaustively over all 65536 `int16` raw values:
  IEEE-754 double evaluation and exact rational evaluation give the same
  truncated index everywhere, so the rational model is exact on the
  program's domain.
-/

namespace ProcessSST

/-- ASCII whitespace as stripped by Python `str.strip` / `str.split` /
`int` (space, tab, newline, carriage return, vertical tab, form feed). -/
def isPySpace (c : Char) : Bool :=
  c = ' ' || c = '\t' || c = '\n' || c = '\r' || c = '\x0b' || c = '\x0c'

/-- ASCII decimal digit. -/
def isDigit (c : Char) : Bool := '0' ≤ c && c ≤ '9'

/-- Worker for `splitWs`: walks the string once, accumulating the current
token in reverse; a whitespace character closes the pending token, and a
pending token is flushed at the end of the string. -/
def splitWsAux : List Char → List Char → List (List Char)
  | [], tok => if tok = [] then [] else [tok.reverse]
  | c :: cs, tok =>
    if isPySpace c then
      if tok = [] then splitWsAux cs [] else tok.reverse :: splitWsAux cs []
    else splitWsAux cs (c :: tok)

/-- `str.split()` with no argument: the maximal whitespace-free runs, with
leading and trailing whitespace discarded; used on header lines. -/
def splitWs (s : List Char) : List (List Char) := splitWsAux s []

/-- Numeric value of a digit list (most significant first), underscores
skipped. -/
def natOfDigits (l : List Char) : ℕ :=
  (l.filter (fun c => c ≠ '_')).foldl (fun a c => 10 * a + (c.toNat - 48)) 0

/-- Tail of a Python integer literal after its first digit: digits, with
single underscores allowed only between digits. -/
def digitsTail : List Char → Bool
  | [] => true
  | c :: cs =>
    if c = '_' then
      match cs with
      | [] => false
      | d :: ds => isDigit d && digitsTail ds
    else isDigit c && digitsTail cs

/-- A valid body for Python `int`: at least one digit, underscores only
between digits. -/
def pyDigitsOk : List Char → Bool
  | [] => false
  | c :: cs => isDigit c && digitsTail cs

/-- The sign-and-digits part of Python `int`, applied after the
whitespace strip. -/
def pyIntCore : List Char → Option ℤ
  | [] => none
  | c :: ds =>
    if c = '+' then if pyDigitsOk ds then some (natOfDigits ds : ℤ) else none
    else if c = '-' then
      if pyDigitsOk ds then some (-(natOfDigits ds : ℤ)) else none
    else if pyDigitsOk (c :: ds) then some (natOfDigits (c :: ds) : ℤ) else none

/-- Python `int(s)` for base-10 strings: strip surrounding whitespace, one
optional sign, then digits; `none` models the `ValueError` raised
otherwise (in particular on the empty string). -/
def pyInt (s : List Char) : Option ℤ :=
  pyIntCore (((s.dropWhile isPySpace).reverse.dropWhile isPySpace).reverse)

/-- Python slice `s[a:b]` for `0 ≤ a ≤ b`: clamps at the string length and
yields the empty string when `a` is past the end. -/
def slice (s : List Char) (a b : ℕ) : List Char := (s.drop a).take (b - a)

/-- Two's-complement wrap into the `int16` range, as performed by numpy
(< 1.24) when a Python int is stored into an `int16` array. -/
def toInt16 (v : ℤ) : ℤ := ((v + 32768) % 65536) - 32768

/-- A month's grid: 180 rows of 360 signed values (`np.zeros((180,360),
dtype=np.int16)` before any row is written). -/
abbrev Grid := List (List ℤ)

/-- The freshly allocated all-zero grid. -/
def zeros : Grid := List.replicate 180 (List.replicate 360 0)

/-- Dictionary update `d[k] = v` on an insertion-ordered association list:
an existing key keeps its position, a new key is appended (Python 3.7+
dict semantics). -/
def setKey (m : List (List Char × Grid)) (k : List Char) (v : Grid) :
    List (List Char × Grid) :=
  if m.any (fun p => p.1 == k) then
    m.map (fun p => if p.1 == k then (k, v) else p)
  else m ++ [(k, v)]

/-- Dictionary lookup `d[k]`; `none` models `KeyError`. -/
def getKey (m : List (List Char × Grid)) (k : List Char) : Option Grid :=
  (m.find? (fun p => p.1 == k)).map (fun p => p.2)

/-- The inner loop `for c in range(360): ... int(line[6*c:6*c+6])`,
started at field `c` with `n` fields remaining; `none` models the
`ValueError` from a non-numeric or empty field.  Values are wrapped at
store time (`int16` array assignment). -/
def parseFrom (line : List Char) : ℕ → ℕ → Option (List ℤ)
  | _, 0 => some []
  | c, n + 1 =>
    match pyInt (slice line (6 * c) (6 * c + 6)) with
    | none => none
    | some v => (parseFrom line (c + 1) n).map (fun vs => toInt16 v :: vs)

/-- All 360 fields of one data line. -/
def parseRow (line : List Char) : Option (List ℤ) := parseFrom line 0 360

/-- Parser state carried across loop iterations: the months dict, the
current month key `M` (unset before the first header: `NameError`), the
row cursor `r`, and the last header year `Y`. -/
structure PState where
  months : List (List Char × Grid)
  cur : Option (List Char)
  row : ℕ
  year : Option (List Char)

/-- Initial state of the `while True` loop. -/
def initState : PState := { months := [], cur := none, row := 0, year := none }

/-- One non-empty line of the parsing loop.  A line shorter than 50
characters is a header `(D, M, Y, *_) = line.split()` (fewer than three
tokens: `ValueError`); otherwise it is a data line writing row `r` of
`months[M]` (`NameError` with no header yet, `IndexError` past row 179). -/
def step (st : PState) (line : List Char) : Option PState :=
  if line.length < 50 then
    match splitWs line with
    | _ :: M :: Y :: _ =>
      some { months := setKey st.months M zeros, cur := some M,
             row := 0, year := some Y }
    | _ => none
  else
    match st.cur with
    | none => none
    | some M =>
      match getKey st.months M with
      | none => none
      | some g =>
        if st.row < g.length then
          match parseRow line with
          | none => none
          | some vals =>
            some { months := setKey st.months M (g.set st.row vals),
                   cur := st.cur, row := st.row + 1, year := st.year }
        else none

/-- The whole `while True: line = f.readline() ...` loop over the sequence
of strings `readline` returns; an empty read breaks out of the loop. -/
def runLines : PState → List (List Char) → Option PState
  | st, [] => some st
  | st, l :: ls =>
    if l.length < 1 then some st
    else
      match step st l with
      | none => none
      | some st2 => runLines st2 ls

/-- The parsing phase of the script: the months dict and the last header
year, or `none` when an exception aborted the run. -/
def parseSST (lines : List (List Char)) :
    Option (List (List Char × Grid) × Option (List Char)) :=
  (runLines initState lines).map (fun st => (st.months, st.year))

/-! ## Colour mapping

The per-cell pipeline of the rendering pass, statement by statement:
`copy = na.astype(float)/100.00`, `copy += 5`, `copy *= 253.0/35.00`,
`copy += 2`, `copy = np.clip(copy, 2, 255).astype(np.uint8)`, then the two
sentinel overrides `copy[na==-32768] = 0` and `copy[na==-1000] = 1`.
Arithmetic is over `ℚ` (exact on this domain, see the header comment). -/

/-- The gradient value before clipping: `(raw/100 + 5) * (253/35) + 2`. -/
def gradVal (raw : ℤ) : ℚ := ((raw : ℚ) / 100 + 5) * (253 / 35) + 2

/-- `np.clip(x, 2, 255)`. -/
def clip (x : ℚ) : ℚ := min (max x 2) 255

/-- `astype(np.uint8)` truncates toward zero; after the clip the value is
in `[2, 255]`, so truncation is the floor. -/
def truncIdx (x : ℚ) : ℕ := (Int.floor x).toNat

/-- The palette index of one cell, sentinel overrides applied last exactly
as in the script (they overwrite whatever the gradient produced). -/
def colourIndex (raw : ℤ) : ℕ :=
  if raw = -32768 then 0
  else if raw = -1000 then 1
  else truncIdx (clip (gradVal raw))

/-- The whole palettised image: the mapping is applied cell by cell. -/
def colourGrid (g : Grid) : List (List ℕ) :=
  g.map (fun row => row.map colourIndex)

/-- The gradient mapping exactly as §4.2 of the design document words it:
scale to degrees, shift by 5, rescale `[0,35]` onto `[0,253]`, offset by
2, clamp to `[2,255]`, truncate.  Stated separately from `colourIndex` so
that the code's pipeline can be proved to refine the documented formula. -/
def specGradIndex (raw : ℤ) : ℕ :=
  (Int.floor (min (max (((raw : ℚ) / 100 + 5) * (253 / 35) + 2) 2) 255)).toNat

/-! ## Palette and output naming -/

/-- `palette = [0,0,0, 255,255,255]` then `e, 0, 255-e` appended for each
`e in range(2,256)`: the flat RGB list handed to `im.putpalette`. -/
def palette : List ℕ :=
  [0, 0, 0, 255, 255, 255] ++
    (List.range' 2 254).flatMap (fun e => [e, 0, 255 - e])

/-- RGB triple of palette entry `e`. -/
def paletteTriple (e : ℕ) : ℕ × ℕ × ℕ :=
  (palette.getD (3 * e) 0, palette.getD (3 * e + 1) 0, palette.getD (3 * e + 2) 0)

/-- `if len(month) < 2: month = '0' + month`. -/
def padMonth (m : List Char) : List Char :=
  if m.length < 2 then '0' :: m else m

/-- `DMY = '01-' + month + '-' + Y` with the padded month. -/
def dmy (m y : List Char) : List Char :=
  ('0' :: '1' :: '-' :: []) ++ padMonth m ++ ('-' :: []) ++ y

/-- `rawname = DMY + '-raw.tif'`. -/
def rawName (m y : List Char) : List Char := dmy m y ++ "-raw.tif".toList

/-- `rgbname = DMY + '-RGB.png'`. -/
def rgbName (m y : List Char) : List Char := dmy m y ++ "-RGB.png".toList

/-- The pair of filenames written for each month, in dict iteration order
(insertion order), all sharing the single post-loop `Y`. -/
def outputNames (months : List (List Char × Grid)) (y : List Char) :
    List (List Char × List Char) :=
  months.map (fun p => (rawName p.1 y, rgbName p.1 y))

/-! ## Cell access -/

/-- Cell `[r][c]` of a raw grid (default 0 out of bounds; the theorems
using it always carry in-bounds hypotheses). -/
def cellD (g : List (List ℤ)) (r c : ℕ) : ℤ := (g.getD r []).getD c 0

/-- Cell `[r][c]` of a palette-index grid. -/
def idxD (h : List (List ℕ)) (r c : ℕ) : ℕ := (h.getD r []).getD c 0

/-- Writing the parsed rows into a grid one by one, starting at row `r`:
the accumulated effect of `months[M][r,c] = ...` over successive data
lines. -/
def updRows : Grid → ℕ → List (List ℤ) → Grid
  | g, _, [] => g
  | g, r, ρ :: ρs => updRows (g.set r ρ) (r + 1) ρs

/-! ## Input families for the parser properties

The testable parser properties quantify over well-formed blocks: a header
line followed by 180 data lines, data line `r` being 360 contiguous
six-character fields `fields r 0, …, fields r 359` (plus an arbitrary
suffix such as the trailing newline).  The next two definitions name that
input family and the grid the claims predict for it. -/

/-- The 180 data lines of one block, given its fields and per-line
suffixes. -/
def blockLines (fields : ℕ → ℕ → List Char) (suffix : ℕ → List Char) :
    List (List Char) :=
  (List.range 180).map
    (fun r => ((List.range 360).map (fields r)).flatten ++ suffix r)

/-- The grid predicted for a block whose field `(r, c)` parses to
`v r c`: every cell holds the parsed value wrapped to `int16`. -/
def gridOfVals (v : ℕ → ℕ → ℤ) : Grid :=
  (List.range 180).map (fun r => (List.range 360).map (fun c => toInt16 (v r c)))

/-! ## Arithmetic facts about the gradient -/

/-- The gradient expression is monotone in the raw value. -/
theorem gradVal_mono {a b : ℤ} (h : a ≤ b) : gradVal a ≤ gradVal b := by
  unfold gradVal
  have ha : (a : ℚ) ≤ (b : ℚ) := by exact_mod_cast h
  nlinarith

/-- The clip keeps order. -/
theorem clip_mono {x y : ℚ} (h : x ≤ y) : clip x ≤ clip y := by
  unfold clip
  exact min_le_min (max_le_max h le_rfl) le_rfl

/-- The clipped value lies in `[2, 255]`. -/
theorem clip_mem (x : ℚ) : 2 ≤ clip x ∧ clip x ≤ 255 := by
  unfold clip
  constructor
  · exact le_min (le_max_right x 2) (by norm_num)
  · exact min_le_right _ _

/-- Truncation of a clipped value lands in `2..255`. -/
theorem truncIdx_clip_mem (x : ℚ) : 2 ≤ truncIdx (clip x) ∧ truncIdx (clip x) ≤ 255 := by
  obtain ⟨h2, h255⟩ := clip_mem x
  unfold truncIdx
  constructor
  · have : (2 : ℤ) ≤ Int.floor (clip x) := by
      rw [Int.le_floor]; exact_mod_cast h2
    omega
  · have : Int.floor (clip x) ≤ 255 := by
      have := Int.floor_mono h255
      simpa using this
    omega

/-- Truncation keeps order. -/
theorem truncIdx_mono {x y : ℚ} (h : x ≤ y) : truncIdx x ≤ truncIdx y := by
  unfold truncIdx
  exact Int.toNat_le_toNat (Int.floor_mono h)

/-- A non-sentinel raw value at or below the lower threshold clips to
index 2. -/
theorem colourIndex_low {raw : ℤ} (h1 : raw ≠ -32768) (h2 : raw ≠ -1000)
    (h : raw ≤ -500) : colourIndex raw = 2 := by
  unfold colourIndex
  rw [if_neg h1, if_neg h2]
  have hraw : (raw : ℚ) ≤ -500 := by exact_mod_cast h
  have hg : gradVal raw ≤ 2 := by unfold gradVal; nlinarith
  have hc : clip (gradVal raw) = 2 := by
    unfold clip
    rw [max_eq_right hg, min_eq_left (by norm_num)]
  rw [hc]; unfold truncIdx; norm_num; rfl

/-- A raw value at or above the upper threshold clips to index 255
(such values are never sentinels). -/
theorem colourIndex_high {raw : ℤ} (h : 3000 ≤ raw) : colourIndex raw = 255 := by
  unfold colourIndex
  rw [if_neg (by omega), if_neg (by omega)]
  have hraw : (3000 : ℚ) ≤ (raw : ℚ) := by exact_mod_cast h
  have hg : (255 : ℚ) ≤ gradVal raw := by unfold gradVal; nlinarith
  have hc : clip (gradVal raw) = 255 := by
    unfold clip
    rw [max_eq_left (by linarith), min_eq_right hg]
  rw [hc]; unfold truncIdx; norm_num; rfl

/-- The palettised image is the cell-wise image of the raw grid. -/
theorem colourGrid_cell (g : Grid) (r c : ℕ) (hr : r < g.length)
    (hc : c < (g.getD r []).length) :
    idxD (colourGrid g) r c = colourIndex (cellD g r c) := by
  unfold idxD cellD colourGrid
  have hrow : (g.map (fun row => row.map colourIndex)).getD r [] =
      (g.getD r []).map colourIndex := by
    rw [List.getD_eq_getElem _ _ (by simpa using hr), List.getD_eq_getElem _ _ hr]
    simp
  rw [hrow]
  rw [List.getD_eq_getElem _ _ (by simpa using hc), List.getD_eq_getElem _ _ hc]
  simp

/-! ## Claim theorems: colour mapping and palette -/

/-- C2: for every non-sentinel raw value the palette index is exactly the
documented formula — `deg = raw/100`, `deg+5`, `·*(253/35)`, `+2`, clamp
to `[2,255]`, truncate — and the result lies in `2..255`. -/
theorem gradient_formula_range (raw : ℤ) (h1 : raw ≠ -32768) (h2 : raw ≠ -1000) :
    colourIndex raw = specGradIndex raw ∧
    2 ≤ colourIndex raw ∧ colourIndex raw ≤ 255 := by
  have he : colourIndex raw = truncIdx (clip (gradVal raw)) := by
    unfold colourIndex; rw [if_neg h1, if_neg h2]
  refine ⟨?_, ?_, ?_⟩
  · rw [he]; rfl
  · rw [he]; exact (truncIdx_clip_mem _).1
  · rw [he]; exact (truncIdx_clip_mem _).2

/-- Witness for C2 at `raw = 0`. -/
theorem gradient_formula_range_witness :
    colourIndex 0 = specGradIndex 0 ∧ 2 ≤ colourIndex 0 ∧ colourIndex 0 ≤ 255 :=
  gradient_formula_range 0 (by norm_num) (by norm_num)

/-- C3: in any grid, a cell holding the land sentinel -32768 renders to
palette index 0 and a cell holding the ice sentinel -1000 renders to
index 1, whatever every other cell holds (the grid is arbitrary); the
overrides run after the gradient pass, so they take precedence over it. -/
theorem sentinel_mapping (g : Grid) (r c : ℕ) (hr : r < g.length)
    (hc : c < (g.getD r []).length) :
    (cellD g r c = -32768 → idxD (colourGrid g) r c = 0) ∧
    (cellD g r c = -1000 → idxD (colourGrid g) r c = 1) := by
  constructor
  · intro h
    rw [colourGrid_cell g r c hr hc, h]
    norm_num [colourIndex]
  · intro h
    rw [colourGrid_cell g r c hr hc, h]
    norm_num [colourIndex]

/-- Witness for C3 on the grid `[[-32768, -1000]]`. -/
theorem sentinel_mapping_witness :
    idxD (colourGrid [[-32768, -1000]]) 0 0 = 0 ∧
    idxD (colourGrid [[-32768, -1000]]) 0 1 = 1 :=
  ⟨(sentinel_mapping [[-32768, -1000]] 0 0 (by norm_num) (by norm_num)).1 (by norm_num [cellD]),
   (sentinel_mapping [[-32768, -1000]] 0 1 (by norm_num) (by norm_num)).2 (by norm_num [cellD])⟩

set_option maxRecDepth 100000 in
set_option maxHeartbeats 2000000 in
/-- C4: the palette is a constant 256-entry RGB table: entry 0 is black,
entry 1 is white, and entry `e` for `e` in `2..255` is `(e, 0, 255-e)`. -/
theorem palette_table :
    palette.length = 768 ∧ paletteTriple 0 = (0, 0, 0) ∧
    paletteTriple 1 = (255, 255, 255) ∧
    ∀ e < 256, 2 ≤ e → paletteTriple e = (e, 0, 255 - e) := by decide

/-- Witness for C4 at entry 7. -/
theorem palette_table_witness : paletteTriple 7 = (7, 0, 248) :=
  palette_table.2.2.2 7 (by norm_num) (by norm_num)

/-- C5 counterexample: -1000 is at or below the lower threshold -500, yet
its palette index is the ice sentinel index 1, not the lower clamp 2. -/
theorem clamp_boundary_cex :
    (-1000 : ℤ) ≤ -500 ∧ colourIndex (-1000) = 1 ∧ (1 : ℕ) ≠ 2 :=
  ⟨by norm_num, by norm_num [colourIndex], by norm_num⟩

/-- C5 (amended: the sentinels -32768 and -1000 are excluded, since their
overrides win): every non-sentinel raw value at or below -500 maps to
index 2, and every raw value at or above 3000 maps to index 255. -/
theorem clamp_boundary_nonsentinel (raw : ℤ) (h1 : raw ≠ -32768) (h2 : raw ≠ -1000) :
    (raw ≤ -500 → colourIndex raw = 2) ∧ (3000 ≤ raw → colourIndex raw = 255) :=
  ⟨fun h => colourIndex_low h1 h2 h, fun h => colourIndex_high h⟩

/-- Witness for C5 at `raw = -600` and `raw = 3000`. -/
theorem clamp_boundary_nonsentinel_witness :
    colourIndex (-600) = 2 ∧ colourIndex 3000 = 255 :=
  ⟨(clamp_boundary_nonsentinel (-600) (by norm_num) (by norm_num)).1 (by norm_num),
   (clamp_boundary_nonsentinel 3000 (by norm_num) (by norm_num)).2 (by norm_num)⟩

/-- C6: the gradient mapping is monotone — raising a non-sentinel raw
value never lowers the palette index. -/
theorem gradient_monotone (a b : ℤ) (ha1 : a ≠ -32768) (ha2 : a ≠ -1000)
    (hb1 : b ≠ -32768) (hb2 : b ≠ -1000) (h : a ≤ b) :
    colourIndex a ≤ colourIndex b := by
  have ea : colourIndex a = truncIdx (clip (gradVal a)) := by
    unfold colourIndex; rw [if_neg ha1, if_neg ha2]
  have eb : colourIndex b = truncIdx (clip (gradVal b)) := by
    unfold colourIndex; rw [if_neg hb1, if_neg hb2]
  rw [ea, eb]
  exact truncIdx_mono (clip_mono (gradVal_mono h))

/-- Witness for C6 at `a = 0`, `b = 100`. -/
theorem gradient_monotone_witness : colourIndex 0 ≤ colourIndex 100 :=
  gradient_monotone 0 100 (by norm_num) (by norm_num) (by norm_num) (by norm_num)
    (by norm_num)

/-! ## Parser lemmas: fields and rows -/

/-- Digits are not whitespace. -/
theorem isDigit_not_space {c : Char} (h : isDigit c = true) : isPySpace c = false := by
  by_contra hc
  rw [Bool.not_eq_false] at hc
  unfold isPySpace at hc
  simp only [Bool.or_eq_true, decide_eq_true_eq] at hc
  rcases hc with ((((h1 | h1) | h1) | h1) | h1) | h1 <;> subst h1 <;>
    exact absurd h (by decide)

/-- An all-digit tail is a valid literal tail. -/
theorem digitsTail_all (l : List Char) (h : ∀ c ∈ l, isDigit c = true) :
    digitsTail l = true := by
  induction l with
  | nil => rfl
  | cons c cs ih =>
    have hc : isDigit c = true := h c (by simp)
    have hne : ¬(c = '_') := fun he => by subst he; exact absurd hc (by decide)
    unfold digitsTail
    rw [if_neg hne, hc, Bool.true_and]
    exact ih (fun d hd => h d (by simp [hd]))

/-- Stripping whitespace from an all-digit string is the identity. -/
theorem dropWhile_all_digits (l : List Char) (h : ∀ c ∈ l, isDigit c = true) :
    l.dropWhile isPySpace = l := by
  cases l with
  | nil => rfl
  | cons c cs =>
    rw [List.dropWhile_cons]
    simp [isDigit_not_space (h c (by simp))]

/-- Python `int` succeeds on any non-empty all-digit string. -/
theorem pyInt_all_digits (l : List Char) (hne : l ≠ []) (h : ∀ c ∈ l, isDigit c = true) :
    pyInt l = some (natOfDigits l : ℤ) := by
  have h1 : l.dropWhile isPySpace = l := dropWhile_all_digits l h
  have h2 : l.reverse.dropWhile isPySpace = l.reverse := by
    apply dropWhile_all_digits
    intro c hc; exact h c (List.mem_reverse.mp hc)
  unfold pyInt
  rw [h1, h2, List.reverse_reverse]
  cases l with
  | nil => exact absurd rfl hne
  | cons c cs =>
    have hc : isDigit c = true := h c (by simp)
    have hplus : ¬(c = '+') := fun he => by subst he; exact absurd hc (by decide)
    have hminus : ¬(c = '-') := fun he => by subst he; exact absurd hc (by decide)
    simp only [pyIntCore]
    rw [if_neg hplus, if_neg hminus, if_pos]
    simp only [pyDigitsOk]
    rw [hc, Bool.true_and]
    exact digitsTail_all cs (fun d hd => h d (by simp [hd]))

/-- Stepping the field index by one is dropping six characters. -/
theorem slice_shift (line : List Char) (c : ℕ) :
    slice line (6 * (c + 1)) (6 * (c + 1) + 6) = slice (line.drop 6) (6 * c) (6 * c + 6) := by
  unfold slice
  rw [List.drop_drop]
  have h1 : 6 * (c + 1) = 6 + 6 * c := by ring
  rw [h1]
  congr 1
  omega

/-- `parseFrom` at a shifted start reads the shifted line. -/
theorem parseFrom_shift (n : ℕ) : ∀ (c : ℕ) (line : List Char),
    parseFrom line (c + 1) n = parseFrom (line.drop 6) c n := by
  induction n with
  | zero => intro c line; rfl
  | succ n ih =>
    intro c line
    show parseFrom line (c + 1) (n + 1) = parseFrom (line.drop 6) c (n + 1)
    unfold parseFrom
    rw [slice_shift]
    cases pyInt (slice (line.drop 6) (6 * c) (6 * c + 6)) with
    | none => rfl
    | some v => rw [ih (c + 1) line]

/-- Peeling one six-character field off the front of a line. -/
theorem parseFrom_head (f rest : List Char) (hf : f.length = 6) (v : ℤ)
    (hv : pyInt f = some v) (n : ℕ) :
    parseFrom (f ++ rest) 0 (n + 1) =
      (parseFrom rest 0 n).map (fun vs => toInt16 v :: vs) := by
  have hsl : slice (f ++ rest) (6 * 0) (6 * 0 + 6) = f := by
    unfold slice
    norm_num
    rw [← hf, List.take_left]
  have hdr : (f ++ rest).drop 6 = rest := by
    rw [← hf, List.drop_left]
  have h1 : parseFrom (f ++ rest) 0 (n + 1) =
      (parseFrom (f ++ rest) (0 + 1) n).map (fun vs => toInt16 v :: vs) := by
    conv_lhs => rw [parseFrom]
    rw [hsl, hv]
  rw [h1, parseFrom_shift, hdr]

/-- A successful `parseFrom` run had every one of its field parses
succeed. -/
theorem parseFrom_field_isSome : ∀ (n c i : ℕ) (line : List Char) (vs : List ℤ),
    parseFrom line c n = some vs → i < n →
    (pyInt (slice line (6 * (c + i)) (6 * (c + i) + 6))).isSome = true := by
  intro n
  induction n with
  | zero => intro c i line vs _ hi; omega
  | succ n ih =>
    intro c i line vs hp hi
    rw [show parseFrom line c (n + 1) =
        match pyInt (slice line (6 * c) (6 * c + 6)) with
        | none => none
        | some v => (parseFrom line (c + 1) n).map (fun vs => toInt16 v :: vs)
      from rfl] at hp
    cases hf : pyInt (slice line (6 * c) (6 * c + 6)) with
    | none => rw [hf] at hp; exact absurd hp (by simp)
    | some v =>
      rw [hf] at hp
      cases i with
      | zero => rw [Nat.add_zero]; rw [hf]; rfl
      | succ i =>
        cases hrec : parseFrom line (c + 1) n with
        | none => rw [hrec] at hp; exact absurd hp (by simp)
        | some vs2 =>
          have := ih (c + 1) i line vs2 hrec (by omega)
          rw [show c + (i + 1) = c + 1 + i by ring]
          exact this

/-- `pyInt` rejects the empty string. -/
theorem pyInt_nil : pyInt [] = none := rfl

/-- A data line shorter than 2155 characters always aborts the row parse:
its last field, characters `[2154, 2160)`, is empty, and `int('')`
raises. -/
theorem parseRow_none_of_short (line : List Char) (h : line.length ≤ 2154) :
    parseRow line = none := by
  cases hp : parseRow line with
  | none => rfl
  | some vs =>
    exfalso
    have h359 := parseFrom_field_isSome 360 0 359 line vs hp (by omega)
    rw [show (6 : ℕ) * (0 + 359) = 2154 by norm_num,
        show (2154 : ℕ) + 6 = 2160 by norm_num] at h359
    have hdrop : line.drop 2154 = [] := List.drop_eq_nil_of_le h
    unfold slice at h359
    rw [hdrop] at h359
    simp [pyInt_nil] at h359

/-- Every field of an all-digit line whose fields all start inside the
line parses successfully. -/
theorem parseFrom_digit_line (d : Char) (hd : isDigit d = true) (L : ℕ) :
    ∀ (n c : ℕ), 6 * (c + n) ≤ L + 5 →
    (parseFrom (List.replicate L d) c n).isSome = true := by
  intro n
  induction n with
  | zero => intro c _; rfl
  | succ n ih =>
    intro c hc
    have hstart : 6 * c + 1 ≤ L := by omega
    have hk : 6 * c + 6 - 6 * c = 6 := by omega
    have hslice : slice (List.replicate L d) (6 * c) (6 * c + 6) =
        List.replicate (min 6 (L - 6 * c)) d := by
      unfold slice
      rw [List.drop_replicate, List.take_replicate, hk]
    have hne : min 6 (L - 6 * c) ≠ 0 := by omega
    have hpy : pyInt (slice (List.replicate L d) (6 * c) (6 * c + 6)) =
        some (natOfDigits (List.replicate (min 6 (L - 6 * c)) d) : ℤ) := by
      rw [hslice]
      apply pyInt_all_digits
      · simpa [List.replicate_eq_nil_iff] using hne
      · intro x hx
        rw [List.eq_of_mem_replicate hx]
        exact hd
    obtain ⟨vs, hvs⟩ := Option.isSome_iff_exists.mp (ih (c + 1) (by omega))
    rw [show parseFrom (List.replicate L d) c (n + 1) =
        match pyInt (slice (List.replicate L d) (6 * c) (6 * c + 6)) with
        | none => none
        | some v => (parseFrom (List.replicate L d) (c + 1) n).map
            (fun vs => toInt16 v :: vs)
      from rfl]
    rw [hpy, hvs]
    rfl

/-- A line laid out as consecutive six-character numeric fields parses to
the wrapped field values, whatever follows the fields. -/
theorem parseFrom_flatten : ∀ (fs : List (List Char)) (vs : List ℤ) (suffix : List Char),
    List.Forall₂ (fun f v => f.length = 6 ∧ pyInt f = some v) fs vs →
    parseFrom (fs.flatten ++ suffix) 0 fs.length = some (vs.map toInt16) := by
  intro fs
  induction fs with
  | nil =>
    intro vs suffix h
    cases h
    rfl
  | cons f fs ih =>
    intro vs suffix h
    cases h with
    | cons hfv htail =>
      rw [List.flatten_cons, List.append_assoc, List.length_cons,
          parseFrom_head f _ hfv.1 _ hfv.2, ih _ suffix htail]
      rfl

/-! ## Parser lemmas: the months dictionary -/

/-- Rewriting the entry for `k` makes `(k, v)` the first hit for `k`. -/
theorem find?_map_setKey (k : List Char) (v : Grid) :
    ∀ (m : List (List Char × Grid)), m.any (fun p => p.1 == k) = true →
    (m.map (fun p => if p.1 == k then (k, v) else p)).find? (fun p => p.1 == k) =
      some (k, v) := by
  intro m
  induction m with
  | nil => intro h; simp at h
  | cons p ps ih =>
    intro h
    by_cases hp : (p.1 == k) = true
    · rw [List.map_cons, if_pos hp, List.find?_cons_of_pos _ (by simp)]
    · have hps : ps.any (fun q => q.1 == k) = true := by
        simp only [List.any_cons] at h
        rcases Bool.or_eq_true_iff.mp h with h1 | h1
        · exact absurd h1 hp
        · exact h1
      rw [List.map_cons, if_neg hp, List.find?_cons_of_neg _ (by simpa using hp)]
      exact ih hps

/-- After `d[k] = v`, looking up `k` yields `v`. -/
theorem getKey_setKey_self (m : List (List Char × Grid)) (k : List Char) (v : Grid) :
    getKey (setKey m k v) k = some v := by
  unfold setKey getKey
  by_cases h : m.any (fun p => p.1 == k) = true
  · rw [if_pos h, find?_map_setKey k v m h]
    rfl
  · rw [if_neg h, List.find?_append]
    have hm : m.find? (fun p => p.1 == k) = none := by
      rw [List.find?_eq_none]
      intro p hp
      rw [Bool.not_eq_true, List.any_eq_false] at h
      simpa using h p hp
    rw [hm]
    simp [List.find?]

/-- Two successive writes to the same key collapse to the second. -/
theorem setKey_setKey_self (m : List (List Char × Grid)) (k : List Char) (v w : Grid) :
    setKey (setKey m k v) k w = setKey m k w := by
  by_cases h : m.any (fun p => p.1 == k) = true
  · have h1 : setKey m k v = m.map (fun p => if p.1 == k then (k, v) else p) := by
      unfold setKey; rw [if_pos h]
    have hany : (m.map (fun p => if p.1 == k then (k, v) else p)).any
        (fun p => p.1 == k) = true := by
      rw [List.any_eq_true] at h ⊢
      obtain ⟨p, hp, hpk⟩ := h
      refine ⟨(k, v), List.mem_map.mpr ⟨p, hp, ?_⟩, by simp⟩
      rw [if_pos hpk]
    rw [h1]
    unfold setKey
    rw [if_pos hany, if_pos h, List.map_map]
    apply List.map_congr_left
    intro p _
    by_cases hpk : (p.1 == k) = true
    · simp [Function.comp, hpk]
    · simp [Function.comp, hpk]
  · have h1 : setKey m k v = m ++ [(k, v)] := by
      unfold setKey; rw [if_neg h]
    have hany : (m ++ [(k, v)]).any (fun p => p.1 == k) = true := by
      rw [List.any_append]
      simp
    rw [h1]
    unfold setKey
    rw [if_pos hany, if_neg h, List.map_append]
    have hm : m.map (fun p => if p.1 == k then (k, w) else p) = m := by
      conv_rhs => rw [← List.map_id m]
      apply List.map_congr_left
      intro p hp
      rw [Bool.not_eq_true, List.any_eq_false] at h
      rw [if_neg (by simpa using h p hp)]
      rfl
    rw [hm]
    simp

/-! ## Parser lemmas: the line loop -/

/-- A fresh dictionary write of a new key. -/
theorem setKey_nil (k : List Char) (v : Grid) : setKey [] k v = [(k, v)] := by
  simp [setKey]

/-- A header line replaces the grid for its month token and resets the
row cursor and year. -/
theorem step_header (ms : List (List Char × Grid)) (cur : Option (List Char))
    (r : ℕ) (yr : Option (List Char)) (l D M Y : List Char) (rest : List (List Char))
    (hlen : l.length < 50) (hsplit : splitWs l = D :: M :: Y :: rest) :
    step ⟨ms, cur, r, yr⟩ l = some ⟨setKey ms M zeros, some M, 0, some Y⟩ := by
  unfold step
  rw [if_pos hlen, hsplit]

/-- A data line with an open month and an in-range row cursor commits the
parsed row. -/
theorem step_data (ms : List (List Char × Grid)) (M : List Char) (r : ℕ)
    (yr : Option (List Char)) (l : List Char) (g : Grid) (ρ : List ℤ)
    (h50 : 50 ≤ l.length) (hget : getKey ms M = some g) (hrow : r < g.length)
    (hparse : parseRow l = some ρ) :
    step ⟨ms, some M, r, yr⟩ l = some ⟨setKey ms M (g.set r ρ), some M, r + 1, yr⟩ := by
  unfold step
  rw [if_neg (by omega)]
  simp only [hget, hparse]
  rw [if_pos hrow]

/-- A data line whose row parse fails aborts the run, whatever the
state. -/
theorem step_data_noparse (st : PState) (l : List Char) (h50 : 50 ≤ l.length)
    (hp : parseRow l = none) : step st l = none := by
  obtain ⟨ms, cur, r, yr⟩ := st
  unfold step
  rw [if_neg (by omega)]
  cases cur with
  | none => rfl
  | some M =>
    cases hget : getKey ms M with
    | none => simp only [hget]
    | some g => simp only [hget, hp, ite_self]

/-- A data line before any header aborts the run (`M` is unbound). -/
theorem step_no_cur (st : PState) (l : List Char) (h50 : 50 ≤ l.length)
    (hcur : st.cur = none) : step st l = none := by
  obtain ⟨ms, cur, r, yr⟩ := st
  unfold step
  rw [if_neg (by omega)]
  cases cur with
  | none => rfl
  | some M => simp at hcur

/-- A non-empty line never triggers the loop break. -/
theorem runLines_cons_ne (st : PState) (l : List Char) (ls : List (List Char))
    (hl : l ≠ []) :
    runLines st (l :: ls) =
      match step st l with
      | none => none
      | some st2 => runLines st2 ls := by
  rw [show runLines st (l :: ls) = if l.length < 1 then some st else
      match step st l with
      | none => none
      | some st2 => runLines st2 ls from rfl]
  rw [if_neg (by have := List.length_pos.mpr hl; omega)]

/-- Splitting the loop at a concatenation, when no line of the first part
is an empty read. -/
theorem runLines_append (xs ys : List (List Char)) :
    ∀ (st : PState), (∀ l ∈ xs, l ≠ []) →
    runLines st (xs ++ ys) = (runLines st xs).bind (fun st2 => runLines st2 ys) := by
  induction xs with
  | nil => intro st _; rfl
  | cons x xs ih =>
    intro st hne
    rw [List.cons_append, runLines_cons_ne _ _ _ (hne x (by simp)),
        runLines_cons_ne _ _ _ (hne x (by simp))]
    cases step st x with
    | none => rfl
    | some st2 =>
      show runLines st2 (xs ++ ys) = (runLines st2 xs).bind (fun st3 => runLines st3 ys)
      exact ih st2 (fun l hl => hne l (by simp [hl]))

/-- Setting exactly at the boundary of a prefix. -/
theorem set_append_cons (z ρ : List ℤ) (rest : List (List ℤ)) :
    ∀ (pre : List (List ℤ)), (pre ++ z :: rest).set pre.length ρ = pre ++ ρ :: rest := by
  intro pre
  induction pre with
  | nil => rfl
  | cons p ps ih =>
    simp only [List.cons_append, List.length_cons, List.set_cons_succ]
    rw [ih]

/-- Writing `rows` one by one over a zero-filled region yields `rows`. -/
theorem updRows_fill (z : List ℤ) :
    ∀ (rows pre : List (List ℤ)),
    updRows (pre ++ List.replicate rows.length z) pre.length rows = pre ++ rows := by
  intro rows
  induction rows with
  | nil =>
    intro pre
    simp [updRows]
  | cons ρ ρs ih =>
    intro pre
    rw [List.length_cons, List.replicate_succ]
    show updRows ((pre ++ z :: List.replicate ρs.length z).set pre.length ρ)
      (pre.length + 1) ρs = pre ++ ρ :: ρs
    rw [set_append_cons]
    have h2 := ih (pre ++ [ρ])
    rw [List.append_assoc, List.singleton_append, List.length_append] at h2
    simp only [List.length_singleton] at h2
    rw [h2, List.append_assoc, List.singleton_append]

/-- A full 180-row write into the fresh grid is exactly the row list. -/
theorem updRows_zeros (rows : List (List ℤ)) (h : rows.length = 180) :
    updRows zeros 0 rows = rows := by
  have h2 := updRows_fill (List.replicate 360 0) rows []
  simp only [List.nil_append, List.length_nil] at h2
  unfold zeros
  rw [← h]
  exact h2

/-- Processing a run of well-formed data lines writes them as consecutive
rows of the open month's grid. -/
theorem runData : ∀ (ls : List (List Char)) (rows : List (List ℤ))
    (ms : List (List Char × Grid)) (M : List Char) (r : ℕ)
    (yr : Option (List Char)) (g : Grid),
    getKey ms M = some g → g.length = 180 → setKey ms M g = ms →
    r + ls.length ≤ 180 →
    List.Forall₂ (fun l ρ => 50 ≤ l.length ∧ parseRow l = some ρ) ls rows →
    runLines ⟨ms, some M, r, yr⟩ ls =
      some ⟨setKey ms M (updRows g r rows), some M, r + ls.length, yr⟩ := by
  intro ls
  induction ls with
  | nil =>
    intro rows ms M r yr g hget hlen hfix hr hF
    cases hF
    rw [show runLines ⟨ms, some M, r, yr⟩ ([] : List (List Char)) =
        some ⟨ms, some M, r, yr⟩ from rfl,
        show updRows g r ([] : List (List ℤ)) = g from rfl, hfix]
    rfl
  | cons l ls ih =>
    intro rows ms M r yr g hget hlen hfix hr hF
    cases hF with
    | cons hlρ htail =>
      rename_i ρ ρs
      obtain ⟨hl50, hlparse⟩ := hlρ
      have hlne : l ≠ [] := by
        intro he
        rw [he] at hl50
        simp at hl50
      have hrow : r < g.length := by
        rw [List.length_cons] at hr
        omega
      rw [runLines_cons_ne _ _ _ hlne,
          step_data ms M r yr l g ρ hl50 hget hrow hlparse]
      show runLines (⟨setKey ms M (g.set r ρ), some M, r + 1, yr⟩ : PState) ls = _
      have hrec := ih ρs (setKey ms M (g.set r ρ)) M (r + 1) yr (g.set r ρ)
        (getKey_setKey_self ms M (g.set r ρ)) (by rw [List.length_set]; exact hlen)
        (setKey_setKey_self ms M (g.set r ρ) (g.set r ρ))
        (by rw [List.length_cons] at hr; omega) htail
      have harith : r + 1 + ls.length = r + (l :: ls).length := by
        rw [List.length_cons]
        omega
      rw [hrec, setKey_setKey_self, harith,
          show updRows g r (ρ :: ρs) = updRows (g.set r ρ) (r + 1) ρs from rfl]

/-- One full block — a header line followed by 180 well-formed data
lines — installs the block's grid under its month token and leaves the
header's year as the last year seen. -/
theorem runBlock (ms : List (List Char × Grid)) (cur : Option (List Char)) (r : ℕ)
    (yr : Option (List Char)) (hdr D M Y : List Char) (rest : List (List Char))
    (ls : List (List Char)) (rows : List (List ℤ))
    (hh : hdr.length < 50) (hs : splitWs hdr = D :: M :: Y :: rest)
    (hlen : ls.length = 180)
    (hF : List.Forall₂ (fun l ρ => 50 ≤ l.length ∧ parseRow l = some ρ) ls rows) :
    runLines ⟨ms, cur, r, yr⟩ (hdr :: ls) =
      some ⟨setKey ms M (updRows zeros 0 rows), some M, 180, some Y⟩ := by
  have hne : hdr ≠ [] := by
    intro he
    rw [he] at hs
    rw [show splitWs [] = [] from rfl] at hs
    exact List.noConfusion hs
  rw [runLines_cons_ne _ _ _ hne, step_header ms cur r yr hdr D M Y rest hh hs]
  show runLines (⟨setKey ms M zeros, some M, 0, some Y⟩ : PState) ls = _
  have hrun := runData ls rows (setKey ms M zeros) M 0 (some Y) zeros
    (getKey_setKey_self ms M zeros)
    (by rw [show zeros = List.replicate 180 (List.replicate 360 0) from rfl,
            List.length_replicate])
    (setKey_setKey_self ms M zeros zeros) (by omega) hF
  rw [hrun, setKey_setKey_self]
  rw [show (0 : ℕ) + ls.length = ls.length by omega, hlen]

/-! ## Parser lemmas: well-formed blocks -/

/-- Pointwise facts over `range`-indexed maps give a `Forall₂`. -/
theorem forall₂_map_range {α β : Type} (R : α → β → Prop) (n : ℕ)
    (f : ℕ → α) (g : ℕ → β) (h : ∀ i < n, R (f i) (g i)) :
    List.Forall₂ R ((List.range n).map f) ((List.range n).map g) := by
  rw [List.forall₂_map_left_iff, List.forall₂_map_right_iff, List.forall₂_same]
  intro i hi
  exact h i (List.mem_range.mp hi)

/-- Reading entry `r` of a `range`-indexed map. -/
theorem map_range_cell {α : Type} (d : α) (n : ℕ) (f : ℕ → α) (r : ℕ)
    (hr : r < n) : ((List.range n).map f).getD r d = f r := by
  rw [List.getD_eq_getElem _ _ (by simpa using hr), List.getElem_map,
      List.getElem_range]

/-- Total width of the 360 six-character fields of one data line. -/
theorem blockLine_length (fields : ℕ → List Char) (suffix : List Char)
    (h6 : ∀ c < 360, (fields c).length = 6) :
    (((List.range 360).map fields).flatten ++ suffix).length = 2160 + suffix.length := by
  rw [List.length_append, List.length_flatten, List.map_map]
  have hrep : (List.range 360).map (List.length ∘ fields) = List.replicate 360 6 := by
    rw [List.eq_replicate_iff]
    constructor
    · rw [List.length_map, List.length_range]
    · intro b hb
      obtain ⟨i, hi, hib⟩ := List.mem_map.mp hb
      rw [← hib]
      exact h6 i (List.mem_range.mp hi)
  rw [hrep, List.sum_replicate, smul_eq_mul]

/-- One well-formed data line parses to its wrapped field values. -/
theorem blockLine_parse (fields : ℕ → List Char) (suffix : List Char) (v : ℕ → ℤ)
    (hfv : ∀ c < 360, (fields c).length = 6 ∧ pyInt (fields c) = some (v c)) :
    parseRow (((List.range 360).map fields).flatten ++ suffix) =
      some ((List.range 360).map (fun c => toInt16 (v c))) := by
  have hlen : ((List.range 360).map fields).length = 360 := by
    rw [List.length_map, List.length_range]
  have hfl := parseFrom_flatten ((List.range 360).map fields)
    ((List.range 360).map v) suffix
    (forall₂_map_range _ 360 fields v (fun i hi => hfv i hi))
  rw [hlen] at hfl
  unfold parseRow
  rw [hfl, List.map_map]
  rfl

/-- No line of a well-formed block is the empty read. -/
theorem blockLines_ne (fields : ℕ → ℕ → List Char) (suffix : ℕ → List Char)
    (h6 : ∀ a < 180, ∀ c < 360, (fields a c).length = 6) :
    ∀ l ∈ blockLines fields suffix, l ≠ [] := by
  intro l hl
  obtain ⟨a, ha, hal⟩ := List.mem_map.mp hl
  have ha180 : a < 180 := List.mem_range.mp ha
  intro hnil
  have := blockLine_length (fields a) (suffix a) (fun c hc => h6 a ha180 c hc)
  rw [← hal] at hnil
  rw [hnil] at this
  simp only [List.length_nil] at this
  omega

/-- Running one full well-formed block from any state: the block grid is
installed under the month token, the cursor ends at row 180, and the
year becomes the block header year. -/
theorem runLines_block (ms : List (List Char × Grid)) (cur : Option (List Char))
    (r : ℕ) (yr : Option (List Char)) (hdr D M Y : List Char)
    (rest : List (List Char)) (fields : ℕ → ℕ → List Char)
    (suffix : ℕ → List Char) (v : ℕ → ℕ → ℤ)
    (hh : hdr.length < 50) (hs : splitWs hdr = D :: M :: Y :: rest)
    (hfv : ∀ a < 180, ∀ c < 360,
      (fields a c).length = 6 ∧ pyInt (fields a c) = some (v a c)) :
    runLines ⟨ms, cur, r, yr⟩ (hdr :: blockLines fields suffix) =
      some ⟨setKey ms M (gridOfVals v), some M, 180, some Y⟩ := by
  have hF : List.Forall₂ (fun l ρ => 50 ≤ l.length ∧ parseRow l = some ρ)
      (blockLines fields suffix)
      ((List.range 180).map (fun a => (List.range 360).map (fun c => toInt16 (v a c)))) := by
    apply forall₂_map_range
    intro a ha
    constructor
    · rw [blockLine_length (fields a) (suffix a) (fun c hc => (hfv a ha c hc).1)]
      omega
    · exact blockLine_parse (fields a) (suffix a) (v a) (fun c hc => hfv a ha c hc)
  have hlen : (blockLines fields suffix).length = 180 := by
    unfold blockLines
    rw [List.length_map, List.length_range]
  have hrows : ((List.range 180).map
      (fun a => (List.range 360).map (fun c => toInt16 (v a c)))).length = 180 := by
    rw [List.length_map, List.length_range]
  have hrb := runBlock ms cur r yr hdr D M Y rest (blockLines fields suffix) _
    hh hs hlen hF
  rw [hrb, updRows_zeros _ hrows]
  rfl

/-- Updating a fresh single-entry dictionary under a different key
appends. -/
theorem setKey_single_ne (k1 k2 : List Char) (v1 v2 : Grid) (h : k1 ≠ k2) :
    setKey [(k1, v1)] k2 v2 = [(k1, v1), (k2, v2)] := by
  unfold setKey
  rw [if_neg]
  · rfl
  · simp [h]

/-- Updating a fresh single-entry dictionary under the same key
overwrites. -/
theorem setKey_single_eq (k : List Char) (v1 v2 : Grid) :
    setKey [(k, v1)] k v2 = [(k, v2)] := by
  simp [setKey]

/-- The lines of a block are never the empty read. -/
theorem block_cons_ne (hdr D M Y : List Char) (rest : List (List Char))
    (fields : ℕ → ℕ → List Char) (suffix : ℕ → List Char)
    (hs : splitWs hdr = D :: M :: Y :: rest)
    (h6 : ∀ a < 180, ∀ c < 360, (fields a c).length = 6) :
    ∀ l ∈ hdr :: blockLines fields suffix, l ≠ [] := by
  intro l hl
  rcases List.mem_cons.mp hl with h | h
  · subst h
    intro he
    rw [he, show splitWs [] = [] from rfl] at hs
    exact List.noConfusion hs
  · exact blockLines_ne fields suffix h6 l h

/-- A file of two well-formed blocks with distinct month tokens: two
independent grids, keyed in file order, and the second block's year is
the one left in `Y`. -/
theorem parse_two_blocks (hdr1 hdr2 D1 M1 Y1 D2 M2 Y2 : List Char)
    (rest1 rest2 : List (List Char)) (fields1 fields2 : ℕ → ℕ → List Char)
    (suffix1 suffix2 : ℕ → List Char) (v1 v2 : ℕ → ℕ → ℤ)
    (hh1 : hdr1.length < 50) (hs1 : splitWs hdr1 = D1 :: M1 :: Y1 :: rest1)
    (hh2 : hdr2.length < 50) (hs2 : splitWs hdr2 = D2 :: M2 :: Y2 :: rest2)
    (hf1 : ∀ a < 180, ∀ c < 360,
      (fields1 a c).length = 6 ∧ pyInt (fields1 a c) = some (v1 a c))
    (hf2 : ∀ a < 180, ∀ c < 360,
      (fields2 a c).length = 6 ∧ pyInt (fields2 a c) = some (v2 a c))
    (hMM : M1 ≠ M2) :
    parseSST ((hdr1 :: blockLines fields1 suffix1) ++
        (hdr2 :: blockLines fields2 suffix2)) =
      some ([(M1, gridOfVals v1), (M2, gridOfVals v2)], some Y2) := by
  unfold parseSST initState
  rw [runLines_append _ _ _
      (block_cons_ne hdr1 D1 M1 Y1 rest1 fields1 suffix1 hs1
        (fun a ha c hc => (hf1 a ha c hc).1)),
      runLines_block [] none 0 none hdr1 D1 M1 Y1 rest1 fields1 suffix1 v1 hh1 hs1 hf1]
  show ((runLines (⟨setKey [] M1 (gridOfVals v1), some M1, 180, some Y1⟩ : PState)
      (hdr2 :: blockLines fields2 suffix2)).map
        (fun st => (st.months, st.year))) = _
  rw [runLines_block _ _ _ _ hdr2 D2 M2 Y2 rest2 fields2 suffix2 v2 hh2 hs2 hf2,
      setKey_nil, setKey_single_ne M1 M2 _ _ hMM]
  rfl

/-- A file of two well-formed blocks sharing one month token: the second
block's grid overwrites the first in the mapping. -/
theorem parse_two_blocks_same (hdr1 hdr2 D1 M Y1 D2 Y2 : List Char)
    (rest1 rest2 : List (List Char)) (fields1 fields2 : ℕ → ℕ → List Char)
    (suffix1 suffix2 : ℕ → List Char) (v1 v2 : ℕ → ℕ → ℤ)
    (hh1 : hdr1.length < 50) (hs1 : splitWs hdr1 = D1 :: M :: Y1 :: rest1)
    (hh2 : hdr2.length < 50) (hs2 : splitWs hdr2 = D2 :: M :: Y2 :: rest2)
    (hf1 : ∀ a < 180, ∀ c < 360,
      (fields1 a c).length = 6 ∧ pyInt (fields1 a c) = some (v1 a c))
    (hf2 : ∀ a < 180, ∀ c < 360,
      (fields2 a c).length = 6 ∧ pyInt (fields2 a c) = some (v2 a c)) :
    parseSST ((hdr1 :: blockLines fields1 suffix1) ++
        (hdr2 :: blockLines fields2 suffix2)) =
      some ([(M, gridOfVals v2)], some Y2) := by
  unfold parseSST initState
  rw [runLines_append _ _ _
      (block_cons_ne hdr1 D1 M Y1 rest1 fields1 suffix1 hs1
        (fun a ha c hc => (hf1 a ha c hc).1)),
      runLines_block [] none 0 none hdr1 D1 M Y1 rest1 fields1 suffix1 v1 hh1 hs1 hf1]
  show ((runLines (⟨setKey [] M (gridOfVals v1), some M, 180, some Y1⟩ : PState)
      (hdr2 :: blockLines fields2 suffix2)).map
        (fun st => (st.months, st.year))) = _
  rw [runLines_block _ _ _ _ hdr2 D2 M Y2 rest2 fields2 suffix2 v2 hh2 hs2 hf2,
      setKey_nil, setKey_single_eq M _ _]
  rfl

/-! ## Claim theorems: the parser -/

/-- C1 (amended: a stored cell is the parsed field value wrapped
two's-complement into the `int16` range — the grid dtype is `int16` — and
equals the parsed integer exactly when that integer fits in `int16`):
a header followed by 180 data lines of 360 six-character numeric fields
parses to a single grid keyed by the header's month token, shaped
180×360, with cell `[r][c]` holding the wrapped value of the integer
parsed from characters `[6c, 6c+6)` of data line `r`; the row index is
the count of data lines since the header. -/
theorem parser_cell_int16 (hdr D M Y : List Char) (rest : List (List Char))
    (fields : ℕ → ℕ → List Char) (suffix : ℕ → List Char) (v : ℕ → ℕ → ℤ)
    (hh : hdr.length < 50) (hs : splitWs hdr = D :: M :: Y :: rest)
    (hfv : ∀ r < 180, ∀ c < 360,
      (fields r c).length = 6 ∧ pyInt (fields r c) = some (v r c)) :
    parseSST (hdr :: blockLines fields suffix) =
      some ([(M, gridOfVals v)], some Y) ∧
    (gridOfVals v).length = 180 ∧
    (∀ r < 180, ((gridOfVals v).getD r []).length = 360) ∧
    (∀ r < 180, ∀ c < 360, cellD (gridOfVals v) r c = toInt16 (v r c)) := by
  refine ⟨?_, ?_, ?_, ?_⟩
  · unfold parseSST initState
    rw [runLines_block [] none 0 none hdr D M Y rest fields suffix v hh hs hfv,
        setKey_nil]
    rfl
  · unfold gridOfVals
    rw [List.length_map, List.length_range]
  · intro r hr
    unfold gridOfVals
    rw [map_range_cell _ _ _ r hr, List.length_map, List.length_range]
  · intro r hr c hc
    unfold cellD gridOfVals
    rw [map_range_cell _ _ _ r hr, map_range_cell _ _ _ c hc]

/-- Field `" -3276"` is six characters. -/
theorem f3276_len : (" -3276".toList).length = 6 := by decide

/-- Field `" -3276"` parses to -3276. -/
theorem f3276_val : pyInt " -3276".toList = some (-3276) := by decide

/-- Field `" 99999"` is six characters. -/
theorem f99999_len : (" 99999".toList).length = 6 := by decide

/-- Field `" 99999"` parses to 99999. -/
theorem f99999_val : pyInt " 99999".toList = some 99999 := by decide

/-- Witness for C1: a uniform block of fields `" -3276"`. -/
theorem parser_cell_int16_witness :
    parseSST ("1 01 1870\n".toList ::
        blockLines (fun _ _ => " -3276".toList) (fun _ => ['\n'])) =
      some ([("01".toList, gridOfVals (fun _ _ => (-3276 : ℤ)))],
        some "1870".toList) :=
  (parser_cell_int16 "1 01 1870\n".toList "1".toList "01".toList "1870".toList []
    (fun _ _ => " -3276".toList) (fun _ => ['\n']) (fun _ _ => (-3276 : ℤ))
    (by decide) (by decide) (fun _ _ _ _ => ⟨f3276_len, f3276_val⟩)).1

/-- C1 counterexample: the claim as stated — cell equals the parsed
integer itself — fails when a field parses to a value outside the
`int16` range: field `" 99999"` parses to 99999 but the stored cell
holds -31073, its two's-complement wrap. -/
theorem parser_cell_overflow_cex :
    parseSST ("1 01 1870\n".toList ::
        blockLines (fun _ _ => " 99999".toList) (fun _ => ['\n'])) =
      some ([("01".toList, gridOfVals (fun _ _ => (99999 : ℤ)))],
        some "1870".toList) ∧
    pyInt " 99999".toList = some 99999 ∧
    cellD (gridOfVals (fun _ _ => (99999 : ℤ))) 0 0 = -31073 ∧
    ((-31073 : ℤ) ≠ 99999) := by
  refine ⟨?_, by decide, ?_, by decide⟩
  · unfold parseSST initState
    rw [runLines_block [] none 0 none _ "1".toList "01".toList "1870".toList []
        (fun _ _ => " 99999".toList) (fun _ => ['\n']) (fun _ _ => (99999 : ℤ))
        (by decide) (by decide) (fun _ _ _ _ => ⟨f99999_len, f99999_val⟩),
        setKey_nil]
    rfl
  · unfold cellD gridOfVals
    rw [map_range_cell _ _ _ 0 (by norm_num), map_range_cell _ _ _ 0 (by norm_num)]
    decide

/-- C7 (amended: the sharp length bound is 2155, not 2160 — a data line
of length 2155..2159 can still parse, because the final field slice
`[2154:2160)` is then a non-empty fragment that `int` may accept): any
input containing a data line shorter than 2155 characters aborts with a
parse error and yields no mapping, as does any input whose first lines
are data lines (a data line before any header). -/
theorem malformed_input_error :
    (∀ (pre : List (List Char)) (bad : List Char) (post : List (List Char)),
      (∀ l ∈ pre, l ≠ []) → 50 ≤ bad.length → bad.length ≤ 2154 →
      parseSST (pre ++ bad :: post) = none) ∧
    (∀ (pre : List (List Char)) (bad : List Char) (post : List (List Char)),
      (∀ l ∈ pre, 50 ≤ l.length) → 50 ≤ bad.length →
      parseSST (pre ++ bad :: post) = none) := by
  constructor
  · intro pre bad post hpre h50 hshort
    have hbadne : bad ≠ [] := by
      intro he
      rw [he] at h50
      simp at h50
    unfold parseSST
    rw [runLines_append pre (bad :: post) initState hpre]
    cases hrun : runLines initState pre with
    | none => rfl
    | some st2 =>
      show ((runLines st2 (bad :: post)).map (fun st => (st.months, st.year))) = none
      rw [runLines_cons_ne st2 bad post hbadne,
          step_data_noparse st2 bad h50 (parseRow_none_of_short bad hshort)]
      rfl
  · intro pre bad post hpre h50
    cases pre with
    | nil =>
      have hbadne : bad ≠ [] := by
        intro he
        rw [he] at h50
        simp at h50
      unfold parseSST
      rw [List.nil_append, runLines_cons_ne initState bad post hbadne,
          step_no_cur initState bad h50 rfl]
      rfl
    | cons p ps =>
      have hp50 : 50 ≤ p.length := hpre p (by simp)
      have hpne : p ≠ [] := by
        intro he
        rw [he] at hp50
        simp at hp50
      unfold parseSST
      rw [List.cons_append, runLines_cons_ne initState p _ hpne,
          step_no_cur initState p hp50 rfl]
      rfl

/-- Witness for C7: a 100-character data line after a header kills the
run, and a lone data line with no header kills the run. -/
theorem malformed_input_error_witness :
    parseSST ["1 01 1870\n".toList, List.replicate 100 '1'] = none ∧
    parseSST [List.replicate 60 '1'] = none :=
  ⟨malformed_input_error.1 ["1 01 1870\n".toList] (List.replicate 100 '1') []
      (by intro l hl; simp at hl; subst hl; decide) (by simp) (by simp),
   malformed_input_error.2 [] (List.replicate 60 '1') []
      (by intro l hl; simp at hl) (by simp)⟩

/-- C7 counterexample: a data line of 2155 digits — 50 or more characters
and shorter than 2160 — does NOT raise: all 360 field slices are
non-empty digit strings (the last one is the single character at offset
2154), so the file parses and a mapping is produced. -/
theorem malformed_input_cex :
    50 ≤ (List.replicate 2155 '1').length ∧
    (List.replicate 2155 '1').length < 2160 ∧
    (parseSST ["1 01 1870\n".toList, List.replicate 2155 '1']).isSome = true := by
  refine ⟨by rw [List.length_replicate]; norm_num,
    by rw [List.length_replicate]; norm_num, ?_⟩
  obtain ⟨ρ, hρ⟩ := Option.isSome_iff_exists.mp
    (parseFrom_digit_line '1' (by decide) 2155 360 0 (by norm_num))
  have hhdr : ("1 01 1870\n".toList : List Char) ≠ [] := by decide
  have hline : (List.replicate 2155 '1' : List Char) ≠ [] := by
    simp only [ne_eq, List.replicate_eq_nil_iff]
    norm_num
  have h50 : 50 ≤ (List.replicate 2155 '1').length := by
    rw [List.length_replicate]
    norm_num
  unfold parseSST initState
  rw [runLines_cons_ne _ _ _ hhdr,
      step_header [] none 0 none _ "1".toList "01".toList "1870".toList []
        (by decide) (by decide)]
  show ((runLines (⟨setKey [] "01".toList zeros, some "01".toList, 0,
      some "1870".toList⟩ : PState) [List.replicate 2155 '1']).map
        (fun st => (st.months, st.year))).isSome = true
  rw [runLines_cons_ne _ _ _ hline,
      step_data (setKey [] "01".toList zeros) "01".toList 0 (some "1870".toList)
        _ zeros ρ h50 (getKey_setKey_self _ _ _)
        (by rw [show zeros = List.replicate 180 (List.replicate 360 0) from rfl,
                List.length_replicate]
            norm_num)
        hρ]
  rfl

/-- C8: the mapping is keyed by the month token alone — two full blocks
with distinct month tokens yield exactly two independent, correctly
populated grids in file order, while two blocks sharing one month token
alias: the second block's fresh grid overwrites the first in the
mapping. -/
theorem multi_period_blocks :
    (∀ (hdr1 hdr2 D1 M1 Y1 D2 M2 Y2 : List Char) (rest1 rest2 : List (List Char))
       (fields1 fields2 : ℕ → ℕ → List Char) (suffix1 suffix2 : ℕ → List Char)
       (v1 v2 : ℕ → ℕ → ℤ),
      hdr1.length < 50 → splitWs hdr1 = D1 :: M1 :: Y1 :: rest1 →
      hdr2.length < 50 → splitWs hdr2 = D2 :: M2 :: Y2 :: rest2 →
      (∀ a < 180, ∀ c < 360,
        (fields1 a c).length = 6 ∧ pyInt (fields1 a c) = some (v1 a c)) →
      (∀ a < 180, ∀ c < 360,
        (fields2 a c).length = 6 ∧ pyInt (fields2 a c) = some (v2 a c)) →
      M1 ≠ M2 →
      parseSST ((hdr1 :: blockLines fields1 suffix1) ++
          (hdr2 :: blockLines fields2 suffix2)) =
        some ([(M1, gridOfVals v1), (M2, gridOfVals v2)], some Y2)) ∧
    (∀ (hdr1 hdr2 D1 M Y1 D2 Y2 : List Char) (rest1 rest2 : List (List Char))
       (fields1 fields2 : ℕ → ℕ → List Char) (suffix1 suffix2 : ℕ → List Char)
       (v1 v2 : ℕ → ℕ → ℤ),
      hdr1.length < 50 → splitWs hdr1 = D1 :: M :: Y1 :: rest1 →
      hdr2.length < 50 → splitWs hdr2 = D2 :: M :: Y2 :: rest2 →
      (∀ a < 180, ∀ c < 360,
        (fields1 a c).length = 6 ∧ pyInt (fields1 a c) = some (v1 a c)) →
      (∀ a < 180, ∀ c < 360,
        (fields2 a c).length = 6 ∧ pyInt (fields2 a c) = some (v2 a c)) →
      parseSST ((hdr1 :: blockLines fields1 suffix1) ++
          (hdr2 :: blockLines fields2 suffix2)) =
        some ([(M, gridOfVals v2)], some Y2)) := by
  constructor
  · intro hdr1 hdr2 D1 M1 Y1 D2 M2 Y2 rest1 rest2 fields1 fields2 s1 s2 v1 v2
      hh1 hs1 hh2 hs2 hf1 hf2 hMM
    exact parse_two_blocks hdr1 hdr2 D1 M1 Y1 D2 M2 Y2 rest1 rest2
      fields1 fields2 s1 s2 v1 v2 hh1 hs1 hh2 hs2 hf1 hf2 hMM
  · intro hdr1 hdr2 D1 M Y1 D2 Y2 rest1 rest2 fields1 fields2 s1 s2 v1 v2
      hh1 hs1 hh2 hs2 hf1 hf2
    exact parse_two_blocks_same hdr1 hdr2 D1 M Y1 D2 Y2 rest1 rest2
      fields1 fields2 s1 s2 v1 v2 hh1 hs1 hh2 hs2 hf1 hf2

/-- Witness for C8: months `"01"` and `"02"`, then months `"01"` and
`"01"`. -/
theorem multi_period_blocks_witness :
    parseSST (("1 01 1870\n".toList ::
        blockLines (fun _ _ => " -3276".toList) (fun _ => ['\n'])) ++
      ("1 02 1870\n".toList ::
        blockLines (fun _ _ => " 99999".toList) (fun _ => ['\n']))) =
      some ([("01".toList, gridOfVals (fun _ _ => (-3276 : ℤ))),
             ("02".toList, gridOfVals (fun _ _ => (99999 : ℤ)))],
        some "1870".toList) ∧
    parseSST (("1 01 1870\n".toList ::
        blockLines (fun _ _ => " -3276".toList) (fun _ => ['\n'])) ++
      ("2 01 1871\n".toList ::
        blockLines (fun _ _ => " 99999".toList) (fun _ => ['\n']))) =
      some ([("01".toList, gridOfVals (fun _ _ => (99999 : ℤ)))],
        some "1871".toList) :=
  ⟨multi_period_blocks.1 "1 01 1870\n".toList "1 02 1870\n".toList
      "1".toList "01".toList "1870".toList "1".toList "02".toList "1870".toList
      [] [] (fun _ _ => " -3276".toList) (fun _ _ => " 99999".toList)
      (fun _ => ['\n']) (fun _ => ['\n'])
      (fun _ _ => (-3276 : ℤ)) (fun _ _ => (99999 : ℤ))
      (by decide) (by decide) (by decide) (by decide)
      (fun _ _ _ _ => ⟨f3276_len, f3276_val⟩)
      (fun _ _ _ _ => ⟨f99999_len, f99999_val⟩) (by decide),
   multi_period_blocks.2 "1 01 1870\n".toList "2 01 1871\n".toList
      "1".toList "01".toList "1870".toList "2".toList "1871".toList
      [] [] (fun _ _ => " -3276".toList) (fun _ _ => " 99999".toList)
      (fun _ => ['\n']) (fun _ => ['\n'])
      (fun _ _ => (-3276 : ℤ)) (fun _ _ => (99999 : ℤ))
      (by decide) (by decide) (by decide) (by decide)
      (fun _ _ _ _ => ⟨f3276_len, f3276_val⟩)
      (fun _ _ _ _ => ⟨f99999_len, f99999_val⟩)⟩

/-- C9: output filenames hardcode day `01`, zero-pad the month key to two
digits, and use the single year left over from the LAST header for every
period — here the first block's own header year `Y1` never appears in
the names, even when `Y1 ≠ Y2`. -/
theorem output_naming_last_year (hdr1 hdr2 D1 M1 Y1 D2 M2 Y2 : List Char)
    (rest1 rest2 : List (List Char)) (fields1 fields2 : ℕ → ℕ → List Char)
    (suffix1 suffix2 : ℕ → List Char) (v1 v2 : ℕ → ℕ → ℤ)
    (hh1 : hdr1.length < 50) (hs1 : splitWs hdr1 = D1 :: M1 :: Y1 :: rest1)
    (hh2 : hdr2.length < 50) (hs2 : splitWs hdr2 = D2 :: M2 :: Y2 :: rest2)
    (hf1 : ∀ a < 180, ∀ c < 360,
      (fields1 a c).length = 6 ∧ pyInt (fields1 a c) = some (v1 a c))
    (hf2 : ∀ a < 180, ∀ c < 360,
      (fields2 a c).length = 6 ∧ pyInt (fields2 a c) = some (v2 a c))
    (hMM : M1 ≠ M2) :
    parseSST ((hdr1 :: blockLines fields1 suffix1) ++
        (hdr2 :: blockLines fields2 suffix2)) =
      some ([(M1, gridOfVals v1), (M2, gridOfVals v2)], some Y2) ∧
    outputNames [(M1, gridOfVals v1), (M2, gridOfVals v2)] Y2 =
      [(rawName M1 Y2, rgbName M1 Y2), (rawName M2 Y2, rgbName M2 Y2)] ∧
    (∀ m y : List Char,
      rawName m y = '0' :: '1' :: '-' :: (padMonth m ++ '-' :: (y ++ "-raw.tif".toList))) ∧
    (∀ m y : List Char,
      rgbName m y = '0' :: '1' :: '-' :: (padMonth m ++ '-' :: (y ++ "-RGB.png".toList))) ∧
    (∀ m : List Char, m.length = 1 → padMonth m = '0' :: m) ∧
    (∀ m : List Char, 2 ≤ m.length → padMonth m = m) := by
  refine ⟨parse_two_blocks hdr1 hdr2 D1 M1 Y1 D2 M2 Y2 rest1 rest2
      fields1 fields2 suffix1 suffix2 v1 v2 hh1 hs1 hh2 hs2 hf1 hf2 hMM,
    rfl, ?_, ?_, ?_, ?_⟩
  · intro m y
    simp [rawName, dmy]
  · intro m y
    simp [rgbName, dmy]
  · intro m hm
    unfold padMonth
    rw [if_pos (by omega)]
  · intro m hm
    unfold padMonth
    rw [if_neg (by omega)]

/-- Witness for C9: first block year 1870, second block year 1999; both
output names carry 1999. -/
theorem output_naming_last_year_witness :
    parseSST (("1 01 1870\n".toList ::
        blockLines (fun _ _ => " -3276".toList) (fun _ => ['\n'])) ++
      ("1 02 1999\n".toList ::
        blockLines (fun _ _ => " 99999".toList) (fun _ => ['\n']))) =
      some ([("01".toList, gridOfVals (fun _ _ => (-3276 : ℤ))),
             ("02".toList, gridOfVals (fun _ _ => (99999 : ℤ)))],
        some "1999".toList) ∧
    outputNames [("01".toList, gridOfVals (fun _ _ => (-3276 : ℤ))),
        ("02".toList, gridOfVals (fun _ _ => (99999 : ℤ)))] "1999".toList =
      [(rawName "01".toList "1999".toList, rgbName "01".toList "1999".toList),
       (rawName "02".toList "1999".toList, rgbName "02".toList "1999".toList)] := by
  have h := output_naming_last_year "1 01 1870\n".toList "1 02 1999\n".toList
    "1".toList "01".toList "1870".toList "1".toList "02".toList "1999".toList
    [] [] (fun _ _ => " -3276".toList) (fun _ _ => " 99999".toList)
    (fun _ => ['\n']) (fun _ => ['\n'])
    (fun _ _ => (-3276 : ℤ)) (fun _ _ => (99999 : ℤ))
    (by decide) (by decide) (by decide) (by decide)
    (fun _ _ _ _ => ⟨f3276_len, f3276_val⟩)
    (fun _ _ _ _ => ⟨f99999_len, f99999_val⟩) (by decide)
  exact ⟨h.1, h.2.1⟩

/-- C10: month keys are the literal header tokens — tokens `"1"` and
`"01"` make two distinct entries in the mapping — yet the rendering pass
zero-pads both to `"01"`, so the two periods' output files get identical
names, and the pair rendered second (the later dictionary entry)
overwrites the first on disk. -/
theorem padding_collision (hdr1 hdr2 D1 Y1 D2 Y2 : List Char)
    (rest1 rest2 : List (List Char)) (fields1 fields2 : ℕ → ℕ → List Char)
    (suffix1 suffix2 : ℕ → List Char) (v1 v2 : ℕ → ℕ → ℤ)
    (hh1 : hdr1.length < 50) (hs1 : splitWs hdr1 = D1 :: ['1'] :: Y1 :: rest1)
    (hh2 : hdr2.length < 50) (hs2 : splitWs hdr2 = D2 :: ['0', '1'] :: Y2 :: rest2)
    (hf1 : ∀ a < 180, ∀ c < 360,
      (fields1 a c).length = 6 ∧ pyInt (fields1 a c) = some (v1 a c))
    (hf2 : ∀ a < 180, ∀ c < 360,
      (fields2 a c).length = 6 ∧ pyInt (fields2 a c) = some (v2 a c)) :
    parseSST ((hdr1 :: blockLines fields1 suffix1) ++
        (hdr2 :: blockLines fields2 suffix2)) =
      some ([(['1'], gridOfVals v1), (['0', '1'], gridOfVals v2)], some Y2) ∧
    (['1'] : List Char) ≠ ['0', '1'] ∧
    padMonth ['1'] = ['0', '1'] ∧
    padMonth ['0', '1'] = ['0', '1'] ∧
    rawName ['1'] Y2 = rawName ['0', '1'] Y2 ∧
    rgbName ['1'] Y2 = rgbName ['0', '1'] Y2 ∧
    outputNames [(['1'], gridOfVals v1), (['0', '1'], gridOfVals v2)] Y2 =
      [(rawName ['0', '1'] Y2, rgbName ['0', '1'] Y2),
       (rawName ['0', '1'] Y2, rgbName ['0', '1'] Y2)] := by
  have hname : rawName ['1'] Y2 = rawName ['0', '1'] Y2 ∧
      rgbName ['1'] Y2 = rgbName ['0', '1'] Y2 := by
    constructor <;> simp [rawName, rgbName, dmy, padMonth]
  refine ⟨parse_two_blocks hdr1 hdr2 D1 ['1'] Y1 D2 ['0', '1'] Y2 rest1 rest2
      fields1 fields2 suffix1 suffix2 v1 v2 hh1 hs1 hh2 hs2 hf1 hf2 (by decide),
    by decide, by decide, by decide, hname.1, hname.2, ?_⟩
  unfold outputNames
  rw [List.map_cons, List.map_cons, List.map_nil]
  rw [show (((['1'] : List Char), gridOfVals v1)).1 = ['1'] from rfl]
  rw [hname.1, hname.2]

/-- Witness for C10: header month tokens `"1"` and `"01"` in one file. -/
theorem padding_collision_witness :
    parseSST (("1 1 1870\n".toList ::
        blockLines (fun _ _ => " -3276".toList) (fun _ => ['\n'])) ++
      ("1 01 1871\n".toList ::
        blockLines (fun _ _ => " 99999".toList) (fun _ => ['\n']))) =
      some ([(['1'], gridOfVals (fun _ _ => (-3276 : ℤ))),
             (['0', '1'], gridOfVals (fun _ _ => (99999 : ℤ)))],
        some "1871".toList) ∧
    rawName ['1'] "1871".toList = rawName ['0', '1'] "1871".toList := by
  have h := padding_collision "1 1 1870\n".toList "1 01 1871\n".toList
    "1".toList "1870".toList "1".toList "1871".toList [] []
    (fun _ _ => " -3276".toList) (fun _ _ => " 99999".toList)
    (fun _ => ['\n']) (fun _ => ['\n'])
    (fun _ _ => (-3276 : ℤ)) (fun _ _ => (99999 : ℤ))
    (by decide) (by decide) (by decide) (by decide)
    (fun _ _ _ _ => ⟨f3276_len, f3276_val⟩)
    (fun _ _ _ _ => ⟨f99999_len, f99999_val⟩)
  exact ⟨h.1, h.2.2.2.2.1⟩

end ProcessSST
